import Mathlib

/-!
Shallow embedding of `generate_map.py` (savannah-restaurant-map): the
classifier, the sheet-row filter, the geocoding enricher with its
file-backed cache, and the KML folder grouping, together with theorems
about the claims of the specification.

External collaborators (the spreadsheet reader, the Nominatim geocoder,
the image-formula side channel) are modelled as explicit function
parameters; floating-point coordinates are modelled as rationals, which
the program only ever copies, never computes with.
-/

namespace SavannahMap

/-- Whitespace as recognized by Python's `str.strip()` (ASCII part). -/
def isSpaceChar (c : Char) : Bool :=
  c = ' ' || c = '\t' || c = '\n' || c = '\r'

/-- Python's `str.strip()`: drop leading and trailing whitespace. -/
def pyStrip (s : String) : String :=
  ⟨((s.data.dropWhile isSpaceChar).reverse.dropWhile isSpaceChar).reverse⟩

/-- Python's `str.lower()` (ASCII case folding). -/
def pyLower (s : String) : String :=
  ⟨s.data.map Char.toLower⟩

/-- Python's substring test `needle in hay` on lists of characters:
true iff `needle` occurs contiguously in the list. -/
def listContainsSub (needle : List Char) : List Char → Bool
  | [] => needle.isEmpty
  | c :: rest => needle.isPrefixOf (c :: rest) || listContainsSub needle rest

/-- Python's `needle in hay` for strings. -/
def strContains (hay needle : String) : Bool :=
  listContainsSub needle.data hay.data

/-- `classify` from generate_map.py lines 49-64: classify a column-C type
string into one of 4 categories, by first-match-wins early returns. -/
def classify (type_str : String) : String :=
  let t := pyLower (pyStrip type_str)
  if t = "rooftop bar" then "rooftop"
  else if strContains t "bar" && !strContains t "restaurant" && !strContains t "food" then "bar"
  else if t = "restaurant" ∨ t = "lunch" then "restaurant"
  else if strContains t "bar" && (strContains t "restaurant" || strContains t "food") then "bar"
  else if t = "restaurant" then "restaurant"
  else "other"

/-- The classifier exactly as the spec's five-rule decision list states it
(rules 1-5, first match wins); identical to `classify` except that the
source's extra `t == "restaurant"` test before the final fallback is absent. -/
def classifySpec (type_str : String) : String :=
  let t := pyLower (pyStrip type_str)
  if t = "rooftop bar" then "rooftop"
  else if strContains t "bar" && !strContains t "restaurant" && !strContains t "food" then "bar"
  else if t = "restaurant" ∨ t = "lunch" then "restaurant"
  else if strContains t "bar" && (strContains t "restaurant" || strContains t "food") then "bar"
  else "other"

/-- `classify` with its second exact `"restaurant"` test (the branch after
the combo bar-plus-restaurant rule, line 61 of the source) removed. -/
def classifyNoDeadBranch (type_str : String) : String :=
  let t := pyLower (pyStrip type_str)
  if t = "rooftop bar" then "rooftop"
  else if strContains t "bar" && !strContains t "restaurant" && !strContains t "food" then "bar"
  else if t = "restaurant" ∨ t = "lunch" then "restaurant"
  else if strContains t "bar" && (strContains t "restaurant" || strContains t "food") then "bar"
  else "other"

-- ── Data model ─────────────────────────────────────────────────────

/-- Column indices from generate_map.py lines 33-37 (0-indexed sheet columns). -/
def COL_NAME : Nat := 0

def COL_LOCATION : Nat := 1

def COL_TYPE : Nat := 2

def COL_SUMMARY : Nat := 4

def COL_ADDRESS : Nat := 14

/-- One restaurant record, as built by `fetch_sheet_data` and enriched by
`geocode_restaurants`.  `lat`/`lng` are absent (`none`) until geocoding,
mirroring the Python dict lacking the keys (`r.get("lat") is None`). -/
structure Listing where
  name : String
  type : String
  category : String
  summary : String
  address : String
  photo_url : String
  lat : Option Rat := none
  lng : Option Rat := none
deriving DecidableEq, Repr

/-- The fields of a `Listing` other than the coordinates. -/
def Listing.core (r : Listing) : String × String × String × String × String × String :=
  (r.name, r.type, r.category, r.summary, r.address, r.photo_url)

/-- Python's `row[j] if len(row) > j else ""`: cell `j` of a row, with the
empty string for an out-of-range index. -/
def cellAt (row : List String) (j : Nat) : String :=
  row.getD j ""

-- ── fetch_sheet_data (lines 119-145): the row filter and Listing builder ──

/-- The body of the `for i, row in enumerate(data_rows)` loop of
`fetch_sheet_data`: skip rows whose location does not contain "sav"
(case-insensitively) and rows with an empty name or address; otherwise
build a `Listing`, classifying the type cell and consulting the
image-formula side channel (`image_urls`, an external collaborator) at
the row's index. -/
def fetchRows (image_urls : Nat → Option String) : Nat → List (List String) → List Listing
  | _, [] => []
  | i, row :: rest =>
    let location := cellAt row COL_LOCATION
    if !strContains (pyLower location) "sav" then
      fetchRows image_urls (i + 1) rest
    else
      let name := cellAt row COL_NAME
      let rtype := cellAt row COL_TYPE
      let summary := cellAt row COL_SUMMARY
      let address := cellAt row COL_ADDRESS
      if name = "" ∨ address = "" then
        fetchRows image_urls (i + 1) rest
      else
        { name := name, type := rtype, category := classify rtype,
          summary := summary, address := address,
          photo_url := (image_urls i).getD "" } :: fetchRows image_urls (i + 1) rest

/-- `fetch_sheet_data`: drop the header row, then run the filter loop.
The spreadsheet reader and the image-formula lookup are external
collaborators, passed in as the raw rows and the `image_urls` map. -/
def fetch_sheet_data (image_urls : Nat → Option String) (all_rows : List (List String)) :
    List Listing :=
  fetchRows image_urls 0 (all_rows.drop 1)

-- ── geocode_restaurants (lines 148-192) ────────────────────────────

/-- Outcome of one external Nominatim call (the geocoder collaborator):
a location with coordinates, a `None` response, or a raised exception. -/
inductive GeoResult where
  | found (latitude longitude : Rat)
  | notFound
  | raised (detail : String)
deriving DecidableEq, Repr

/-- The information content of the three `print` statements inside the
geocoding loop. -/
inductive LogMsg where
  | geocoded (name : String) (latitude longitude : Rat)
  | warnNoGeocode (address name : String)
  | errGeocode (address detail : String)
deriving DecidableEq, Repr

/-- The file-backed geocode cache: `address -> {lat, lng}` entries, in
insertion order (a Python dict). -/
abbrev Cache := List (String × Rat × Rat)

/-- State threaded through the geocoding loop: the in-memory cache, the
addresses sent to the external geocoder (in call order), and the
messages printed. -/
structure GeoState where
  cache : Cache
  calls : List String
  msgs : List LogMsg
deriving Repr

/-- One iteration of the `for r in restaurants` loop of
`geocode_restaurants`: on a cache hit assign the cached coordinates; on
a miss call the external geocoder `g`, and either record and cache the
coordinates, or leave them absent with a warning (null response) or an
error message (raised exception). -/
def geocodeStep (g : String → GeoResult) (st : GeoState) (r : Listing) : GeoState × Listing :=
  match st.cache.lookup r.address with
  | some (la, ln) => (st, { r with lat := some la, lng := some ln })
  | none =>
    match g r.address with
    | .found la ln =>
      ({ cache := st.cache ++ [(r.address, la, ln)],
         calls := st.calls ++ [r.address],
         msgs := st.msgs ++ [.geocoded r.name la ln] },
       { r with lat := some la, lng := some ln })
    | .notFound =>
      ({ st with calls := st.calls ++ [r.address],
                 msgs := st.msgs ++ [.warnNoGeocode r.address r.name] },
       { r with lat := none, lng := none })
    | .raised e =>
      ({ st with calls := st.calls ++ [r.address],
                 msgs := st.msgs ++ [.errGeocode r.address e] },
       { r with lat := none, lng := none })

/-- The whole geocoding loop, processing the Listings in order. -/
def geocodeLoop (g : String → GeoResult) : GeoState → List Listing → GeoState × List Listing
  | st, [] => (st, [])
  | st, r :: rest =>
    let p := geocodeStep g st r
    let q := geocodeLoop g p.1 rest
    (q.1, p.2 :: q.2)

/-- `geocode_restaurants`: starting from the cache loaded from disk
(`cache0`, the empty list when the cache file does not exist), run the
loop, then drop every Listing whose `lat` is still absent (the source
filters on `r.get("lat") is not None`).  Returns the final state — whose
`cache` field is what the source persists to disk — together with the
filtered Listing collection handed to both renderers. -/
def geocode_restaurants (g : String → GeoResult) (cache0 : Cache)
    (restaurants : List Listing) : GeoState × List Listing :=
  let p := geocodeLoop g ⟨cache0, [], []⟩ restaurants
  (p.1, p.2.filter (fun r => r.lat.isSome))

-- ── generate_kml grouping (lines 503-513) ──────────────────────────

/-- The fixed folder iteration order of `generate_kml`. -/
def kmlCategoryOrder : List String := ["restaurant", "bar", "rooftop", "other"]

/-- `by_cat` of `generate_kml`: the dict built by
`by_cat.setdefault(r["category"], []).append(r)` maps each category to
the Listings of that category in input order. -/
def by_cat (restaurants : List Listing) (c : String) : List Listing :=
  restaurants.filter (fun r => r.category == c)

/-- The folder structure of the KML document: one `(category, items)`
folder per non-empty category, iterated in the fixed order
restaurant, bar, rooftop, other (`for cat_key in [...]` with empty
categories skipped). -/
def generate_kml_folders (restaurants : List Listing) : List (String × List Listing) :=
  kmlCategoryOrder.filterMap (fun c =>
    let items := by_cat restaurants c
    if items.isEmpty then none else some (c, items))

/-- The keep-condition of `fetch_sheet_data`'s row filter, as one Boolean:
location contains "sav" case-insensitively, name and address non-empty. -/
def keepRow (row : List String) : Bool :=
  strContains (pyLower (cellAt row COL_LOCATION)) "sav"
    && !(cellAt row COL_NAME == "") && !(cellAt row COL_ADDRESS == "")

/-- The Listing built from a kept row at data-row index `i`. -/
def mkListing (image_urls : Nat → Option String) (i : Nat) (row : List String) : Listing :=
  { name := cellAt row COL_NAME, type := cellAt row COL_TYPE,
    category := classify (cellAt row COL_TYPE), summary := cellAt row COL_SUMMARY,
    address := cellAt row COL_ADDRESS, photo_url := (image_urls i).getD "" }

/-- Python's `enumerate` starting at index `i`. -/
def enumFrom {α : Type} : Nat → List α → List (Nat × α)
  | _, [] => []
  | i, a :: l => (i, a) :: enumFrom (i + 1) l

/-- The coordinates an address resolves to, given the geocoder and a cache:
the cached pair if present, else the geocoder's answer if successful. -/
def resolveCoord (g : String → GeoResult) (c : Cache) (a : String) : Option (Rat × Rat) :=
  match c.lookup a with
  | some (la, ln) => some (la, ln)
  | none =>
    match g a with
    | .found la ln => some (la, ln)
    | _ => none

-- ── The spec's end-to-end scenario (spec §8) ───────────────────────

/-- Header plus the three data rows of the spec's end-to-end scenario;
the address lives in column 14, per the sheet layout. -/
def scenarioRows : List (List String) :=
  [ ["Name", "Location", "Type", "", "Summary", "", "", "", "", "", "", "", "", "", "Address"],
    ["Pier 1", "Savannah, GA", "Rooftop Bar", "", "", "", "", "", "", "", "", "", "", "", "1 Bay St"],
    ["", "Savannah, GA", "Bar", "", "", "", "", "", "", "", "", "", "", "", "2 Bay St"],
    ["Joe's", "Atlanta, GA", "Restaurant", "", "", "", "", "", "", "", "", "", "", "", "3 Main St"] ]

/-- The scenario's geocoder: resolves "1 Bay St" to (32.08, -81.09), i.e. (3208/100, -8109/100). -/
def scenarioGeo : String → GeoResult := fun a =>
  if a = "1 Bay St" then .found (mkRat 3208 100) (mkRat (-8109) 100) else .notFound

/-- The single expected output Listing of the scenario. -/
def scenarioOut : Listing :=
  { name := "Pier 1", type := "Rooftop Bar", category := "rooftop", summary := "",
    address := "1 Bay St", photo_url := "",
    lat := some (mkRat 3208 100), lng := some (mkRat (-8109) 100) }

/-- A Listing with just a name and an address, for concrete runs. -/
def plainListing (nm addr : String) : Listing :=
  { name := nm, type := "", category := "other", summary := "",
    address := addr, photo_url := "" }

/-- The message the geocoding loop prints for a Listing whose address
reaches the external geocoder: the success line, the warning naming the
address and the listing name (null response), or the error naming the
address and the exception detail. -/
def failMsg (g : String → GeoResult) (r : Listing) : LogMsg :=
  match g r.address with
  | .found la ln => .geocoded r.name la ln
  | .notFound => .warnNoGeocode r.address r.name
  | .raised e => .errGeocode r.address e

-- ── Helper lemmas ──────────────────────────────────────────────────

/-- Association-list lookup over an append: the left list wins. -/
theorem lookup_append {β : Type} (a : String) (l l' : List (String × β)) :
    (l ++ l').lookup a =
      match l.lookup a with
      | some v => some v
      | none => l'.lookup a := by
  induction l with
  | nil => simp [List.lookup]
  | cons p t ih =>
    obtain ⟨k, v⟩ := p
    by_cases h : a == k <;> simp [List.lookup, h, ih]

/-- A geocoding step does not change a Listing's non-coordinate fields. -/
theorem geocodeStep_core (g : String → GeoResult) (st : GeoState) (r : Listing) :
    ((geocodeStep g st r).2).core = r.core := by
  unfold geocodeStep
  rcases hl : st.cache.lookup r.address with _ | ⟨la, ln⟩
  · rcases hg : g r.address <;> simp [Listing.core]
  · simp [Listing.core]

/-- A geocoding step does not change a Listing's address. -/
theorem geocodeStep_address (g : String → GeoResult) (st : GeoState) (r : Listing) :
    ((geocodeStep g st r).2).address = r.address := by
  unfold geocodeStep
  rcases hl : st.cache.lookup r.address with _ | ⟨la, ln⟩
  · rcases hg : g r.address <;> simp
  · simp

/-- The coordinates a step assigns are `resolveCoord` of the pre-step cache. -/
theorem geocodeStep_coords (g : String → GeoResult) (st : GeoState) (r : Listing) :
    ((geocodeStep g st r).2).lat = (resolveCoord g st.cache r.address).map Prod.fst ∧
      ((geocodeStep g st r).2).lng = (resolveCoord g st.cache r.address).map Prod.snd := by
  unfold geocodeStep resolveCoord
  rcases hl : st.cache.lookup r.address with _ | ⟨la, ln⟩
  · rcases hg : g r.address <;> simp
  · simp

/-- A step never changes what any address resolves to: it caches only
values the geocoder just returned, for a previously uncached address. -/
theorem resolveCoord_geocodeStep (g : String → GeoResult) (st : GeoState) (r : Listing)
    (a : String) :
    resolveCoord g ((geocodeStep g st r).1).cache a = resolveCoord g st.cache a := by
  unfold geocodeStep
  rcases hl : st.cache.lookup r.address with _ | ⟨la, ln⟩
  · rcases hg : g r.address with ⟨la, ln⟩ | _ | e
    · by_cases ha : a = r.address
      · subst ha
        simp [resolveCoord, lookup_append, hl, hg, List.lookup]
      · have hne : (a == r.address) = false := by simp [ha]
        rcases hla : List.lookup a st.cache with _ | ⟨x, y⟩ <;>
          simp [resolveCoord, lookup_append, List.lookup, hne, hla]
    · simp
    · simp
  · simp

/-- Messages only accumulate across a step. -/
theorem geocodeStep_msgs_mono (g : String → GeoResult) (st : GeoState) (r : Listing)
    (m : LogMsg) (hm : m ∈ st.msgs) : m ∈ (geocodeStep g st r).1.msgs := by
  unfold geocodeStep
  rcases hl : st.cache.lookup r.address with _ | ⟨la, ln⟩
  · rcases hg : g r.address <;> simp [hm]
  · simpa using hm

/-- The loop keeps the non-coordinate fields of the Listings, in order. -/
theorem geocodeLoop_core_map (g : String → GeoResult) (rs : List Listing) :
    ∀ st : GeoState, ((geocodeLoop g st rs).2).map Listing.core = rs.map Listing.core := by
  induction rs with
  | nil => intro st; simp [geocodeLoop]
  | cons r rest ih =>
    intro st
    simp only [geocodeLoop, List.map_cons]
    rw [geocodeStep_core, ih]

/-- The loop processes every Listing: the output has the input's length. -/
theorem geocodeLoop_length (g : String → GeoResult) (rs : List Listing) (st : GeoState) :
    ((geocodeLoop g st rs).2).length = rs.length := by
  have h := geocodeLoop_core_map g rs st
  have := congrArg List.length h
  simpa using this

/-- The whole loop never changes what any address resolves to. -/
theorem resolveCoord_geocodeLoop (g : String → GeoResult) (rs : List Listing) :
    ∀ (st : GeoState) (a : String),
      resolveCoord g ((geocodeLoop g st rs).1).cache a = resolveCoord g st.cache a := by
  induction rs with
  | nil => intro st a; simp [geocodeLoop]
  | cons r rest ih =>
    intro st a
    simp only [geocodeLoop]
    rw [ih, resolveCoord_geocodeStep]

/-- Messages only accumulate across the loop. -/
theorem geocodeLoop_msgs_mono (g : String → GeoResult) (rs : List Listing) :
    ∀ (st : GeoState) (m : LogMsg), m ∈ st.msgs → m ∈ (geocodeLoop g st rs).1.msgs := by
  induction rs with
  | nil => intro st m hm; simpa [geocodeLoop] using hm
  | cons r rest ih =>
    intro st m hm
    simp only [geocodeLoop]
    exact ih _ m (geocodeStep_msgs_mono g st r m hm)

/-- Every Listing the loop emits carries exactly the coordinates its
address resolves to under the initial cache. -/
theorem geocodeLoop_out_coords (g : String → GeoResult) (rs : List Listing) :
    ∀ st : GeoState, ∀ r ∈ (geocodeLoop g st rs).2,
      r.lat = (resolveCoord g st.cache r.address).map Prod.fst ∧
        r.lng = (resolveCoord g st.cache r.address).map Prod.snd := by
  induction rs with
  | nil => intro st r hr; simp [geocodeLoop] at hr
  | cons r0 rest ih =>
    intro st r hr
    simp only [geocodeLoop, List.mem_cons] at hr
    rcases hr with hr | hr
    · subst hr
      have haddr := geocodeStep_address g st r0
      rw [haddr]
      exact geocodeStep_coords g st r0
    · have h := ih (geocodeStep g st r0).1 r hr
      rwa [resolveCoord_geocodeStep] at h

/-- Full characterization of the cache the loop leaves behind: every
pre-existing entry survives unchanged, and an entry appears for exactly
the addresses of processed Listings that were uncached and for which the
geocoder succeeded — with the geocoder's coordinates. -/
theorem geocodeLoop_cache_lookup (g : String → GeoResult) (a : String) (rs : List Listing) :
    ∀ st : GeoState,
      ((geocodeLoop g st rs).1).cache.lookup a =
        match st.cache.lookup a with
        | some v => some v
        | none =>
          if a ∈ rs.map Listing.address then
            match g a with
            | .found la ln => some (la, ln)
            | _ => none
          else none := by
  induction rs with
  | nil =>
    intro st
    rcases hla : st.cache.lookup a with _ | v <;> simp [geocodeLoop, hla]
  | cons r rest ih =>
    intro st
    simp only [geocodeLoop]
    rw [ih]
    unfold geocodeStep
    rcases hl : st.cache.lookup r.address with _ | ⟨la0, ln0⟩
    · rcases hg : g r.address with ⟨la, ln⟩ | _ | e
      · by_cases ha : a = r.address
        · subst ha
          simp [lookup_append, hl, List.lookup, hg]
        · have hne : (a == r.address) = false := by simp [ha]
          rcases hla : st.cache.lookup a with _ | v <;>
            simp [lookup_append, hla, List.lookup, hne, ha]
      · by_cases ha : a = r.address
        · subst ha
          simp [hl, hg]
        · rcases hla : st.cache.lookup a with _ | v <;> simp [hla, ha]
      · by_cases ha : a = r.address
        · subst ha
          simp [hl, hg]
        · rcases hla : st.cache.lookup a with _ | v <;> simp [hla, ha]
    · by_cases ha : a = r.address
      · subst ha
        simp [hl]
      · rcases hla : st.cache.lookup a with _ | v <;> simp [hla, ha]

/-- Rate of external calls for an address the geocoder can resolve: the
loop adds at most one call for it, none at all if it is already cached,
because the successful call caches it immediately. -/
theorem geocodeLoop_calls_count (g : String → GeoResult) (a : String) (la ln : Rat)
    (hg : g a = .found la ln) (rs : List Listing) :
    ∀ st : GeoState,
      ((geocodeLoop g st rs).1).calls.count a ≤
        st.calls.count a + (if (st.cache.lookup a).isSome then 0 else 1) := by
  induction rs with
  | nil =>
    intro st
    simp only [geocodeLoop]
    split <;> omega
  | cons r rest ih =>
    intro st
    simp only [geocodeLoop]
    refine le_trans (ih _) ?_
    unfold geocodeStep
    rcases hl : st.cache.lookup r.address with _ | ⟨la0, ln0⟩
    · by_cases ha : a = r.address
      · subst ha
        rw [hg]
        simp [List.count_append, lookup_append, hl, List.lookup, hg]
      · have hne : (r.address == a) = false := by
          simp only [beq_eq_false_iff_ne, ne_eq]
          exact fun h => ha h.symm
        have hne2 : (a == r.address) = false := by
          simp only [beq_eq_false_iff_ne, ne_eq]
          exact ha
        rcases hgr : g r.address with ⟨la1, ln1⟩ | _ | e
        · rcases hla : st.cache.lookup a with _ | v <;>
            simp [List.count_append, lookup_append, hla, List.lookup,
              List.count_cons, hne, hne2, ha]
        · simp [List.count_append, List.count_cons, hne]
        · simp [List.count_append, List.count_cons, hne]
    · simp

/-- A step never creates a cache entry for an address the geocoder fails
on: only just-returned coordinates are inserted. -/
theorem geocodeStep_cache_none (g : String → GeoResult) (st : GeoState) (r : Listing)
    (a : String) (h : st.cache.lookup a = none)
    (hfail : ∀ la ln, g a ≠ .found la ln) :
    ((geocodeStep g st r).1).cache.lookup a = none := by
  unfold geocodeStep
  rcases hl : st.cache.lookup r.address with _ | ⟨la0, ln0⟩
  · rcases hgr : g r.address with ⟨la1, ln1⟩ | _ | e
    · by_cases ha : a = r.address
      · subst ha; exact absurd hgr (hfail la1 ln1)
      · have hne : (a == r.address) = false := by
          simp only [beq_eq_false_iff_ne, ne_eq]; exact ha
        simp [lookup_append, h, List.lookup, hne]
    · simpa using h
    · simpa using h
  · simpa using h

/-- If some processed Listing has an uncached address on which the
geocoder returns a null response, the loop surfaces the warning naming
that address and that Listing's name. -/
theorem geocodeLoop_warn_msg (g : String → GeoResult) (rs : List Listing) :
    ∀ (st : GeoState) (r : Listing), r ∈ rs → st.cache.lookup r.address = none →
      g r.address = .notFound →
      LogMsg.warnNoGeocode r.address r.name ∈ (geocodeLoop g st rs).1.msgs := by
  induction rs with
  | nil => intro st r hr; simp at hr
  | cons r0 rest ih =>
    intro st r hr hnone hnf
    simp only [List.mem_cons] at hr
    rcases hr with hr | hr
    · subst hr
      refine geocodeLoop_msgs_mono g rest _ _ ?_
      unfold geocodeStep
      rw [hnone, hnf]
      simp
    · refine ih _ r hr ?_ hnf
      refine geocodeStep_cache_none g st r0 r.address hnone ?_
      intro la ln hcontra
      rw [hnf] at hcontra
      exact GeoResult.noConfusion hcontra

/-- If some processed Listing has an uncached address on which the
geocoder raises, the loop surfaces the error naming that address and the
exception detail. -/
theorem geocodeLoop_err_msg (g : String → GeoResult) (rs : List Listing) :
    ∀ (st : GeoState) (r : Listing) (e : String), r ∈ rs →
      st.cache.lookup r.address = none → g r.address = .raised e →
      LogMsg.errGeocode r.address e ∈ (geocodeLoop g st rs).1.msgs := by
  induction rs with
  | nil => intro st r e hr; simp at hr
  | cons r0 rest ih =>
    intro st r e hr hnone hrs
    simp only [List.mem_cons] at hr
    rcases hr with hr | hr
    · subst hr
      refine geocodeLoop_msgs_mono g rest _ _ ?_
      unfold geocodeStep
      rw [hnone, hrs]
      simp
    · refine ih _ r e hr ?_ hrs
      refine geocodeStep_cache_none g st r0 r.address hnone ?_
      intro la ln hcontra
      rw [hrs] at hcontra
      exact GeoResult.noConfusion hcontra

/-- `fetchRows` is exactly: enumerate, keep the rows satisfying
`keepRow`, build a Listing from each kept row at its index. -/
theorem fetchRows_eq (image_urls : Nat → Option String) (rows : List (List String)) :
    ∀ i : Nat,
      fetchRows image_urls i rows =
        ((enumFrom i rows).filter (fun p => keepRow p.2)).map
          (fun p => mkListing image_urls p.1 p.2) := by
  induction rows with
  | nil => intro i; simp [fetchRows, enumFrom]
  | cons row rest ih =>
    intro i
    by_cases h1 : strContains (pyLower (cellAt row COL_LOCATION)) "sav" = true
    · by_cases h2 : cellAt row COL_NAME = "" ∨ cellAt row COL_ADDRESS = ""
      · have hk : keepRow row = false := by
          rcases h2 with h2 | h2 <;> simp [keepRow, h2]
        simp [fetchRows, enumFrom, List.filter_cons, h1, h2, hk, ih]
      · have hk : keepRow row = true := by
          push_neg at h2
          simp [keepRow, h1, h2.1, h2.2]
        simp [fetchRows, enumFrom, List.filter_cons, h1, h2, hk, ih, mkListing]
    · have h1f : strContains (pyLower (cellAt row COL_LOCATION)) "sav" = false := by
        simpa using h1
      have hk : keepRow row = false := by simp [keepRow, h1f]
      simp [fetchRows, enumFrom, List.filter_cons, h1f, hk, ih]

/-- Every Listing `fetch_sheet_data` emits has a non-empty name, a
non-empty address, and a category computed by `classify` from its type. -/
theorem fetchRows_fields (image_urls : Nat → Option String) (rows : List (List String))
    (i : Nat) (l : Listing) (hl : l ∈ fetchRows image_urls i rows) :
    ¬l.name = "" ∧ ¬l.address = "" ∧ l.category = classify l.type := by
  rw [fetchRows_eq] at hl
  simp only [List.mem_map, List.mem_filter] at hl
  obtain ⟨⟨j, row⟩, ⟨hmem, hkeep⟩, rfl⟩ := hl
  simp only [keepRow, Bool.and_eq_true, bne_iff_ne, Bool.not_eq_true', beq_eq_false_iff_ne,
    ne_eq] at hkeep
  exact ⟨hkeep.1.2, hkeep.2, rfl⟩

/-- The source classifier agrees everywhere with the spec's five-rule
decision list: the source's extra exact `"restaurant"` test sits in the
fall-through of the rule that already returned on `"restaurant"`, so it
can never fire. -/
theorem classify_eq_spec (s : String) : classify s = classifySpec s := by
  simp only [classify, classifySpec]
  split_ifs <;> simp_all

/-- `classify` always lands in one of the four categories. -/
theorem classify_total (s : String) :
    classify s = "restaurant" ∨ classify s = "bar" ∨ classify s = "rooftop" ∨
      classify s = "other" := by
  simp only [classify]
  split_ifs <;> simp

/-- A filter is empty exactly when no element satisfies the predicate. -/
theorem filter_eq_nil_iff_any {α : Type} (l : List α) (p : α → Bool) :
    l.filter p = [] ↔ l.any p = false := by
  induction l with
  | nil => simp
  | cons a t ih =>
    by_cases h : p a <;> simp [List.filter_cons, h, ih]

/-- The folder names of the KML grouping, for any fixed key order: the
keys whose category is inhabited, in that order. -/
theorem folders_fst (out : List Listing) (cs : List String) :
    ((cs.filterMap (fun c =>
        let items := by_cat out c
        if items.isEmpty then none else some (c, items))).map Prod.fst) =
      cs.filter (fun c => out.any (fun r => r.category == c)) := by
  induction cs with
  | nil => simp
  | cons c cs ih =>
    by_cases h : by_cat out c = []
    · have hany : out.any (fun r => r.category == c) = false :=
        (filter_eq_nil_iff_any out _).mp h
      simp [List.filterMap_cons, List.filter_cons, h, hany]
      simpa using ih
    · have hany : out.any (fun r => r.category == c) = true := by
        by_contra ha
        have ha' : out.any (fun r => r.category == c) = false := by simpa using ha
        exact h ((filter_eq_nil_iff_any out _).mpr ha')
      simp [List.filterMap_cons, List.filter_cons, h, hany]
      simpa using ih

/-- Each KML folder's Listings form an in-order selection of the output. -/
theorem folders_snd_sublist (out : List Listing) (p : String × List Listing)
    (hp : p ∈ generate_kml_folders out) : p.2.Sublist out := by
  unfold generate_kml_folders at hp
  simp only [List.mem_filterMap] at hp
  obtain ⟨c, _, hc⟩ := hp
  by_cases h : by_cat out c = []
  · simp [h] at hc
  · simp [h] at hc
    rw [← hc]
    exact List.filter_sublist out

-- ── Claim theorems ─────────────────────────────────────────────────

/-- C1: every Listing in the collection returned by `geocode_restaurants`
on the output of `fetch_sheet_data` (and hence handed to both renderers)
has non-null `lat` and non-null `lng` (never one present without the
other), non-empty name, non-empty address, and its category field equal
to `classify` applied to its type field. -/
theorem C1_output_invariant (image_urls : Nat → Option String)
    (all_rows : List (List String)) (g : String → GeoResult) (cache0 : Cache) :
    ((geocode_restaurants g cache0 (fetch_sheet_data image_urls all_rows)).2).all
      (fun r => r.lat.isSome && r.lng.isSome && !(r.name == "") && !(r.address == "") &&
        (r.category == classify r.type)) = true := by
  rw [List.all_eq_true]
  intro r hr
  unfold geocode_restaurants at hr
  simp only [List.mem_filter] at hr
  obtain ⟨hmem, hlat⟩ := hr
  have hco := geocodeLoop_out_coords g (fetch_sheet_data image_urls all_rows)
    ⟨cache0, [], []⟩ r hmem
  have hcore : r.core ∈ (fetch_sheet_data image_urls all_rows).map Listing.core := by
    rw [← geocodeLoop_core_map g (fetch_sheet_data image_urls all_rows) ⟨cache0, [], []⟩]
    exact List.mem_map_of_mem _ hmem
  simp only [List.mem_map] at hcore
  obtain ⟨l, hlm, hlcore⟩ := hcore
  have hf := fetchRows_fields image_urls (all_rows.drop 1) 0 l hlm
  simp only [Listing.core, Prod.mk.injEq] at hlcore
  obtain ⟨hn, ht, hcat, _, ha, _⟩ := hlcore
  have hlng : r.lng.isSome = true := by
    rcases hx : resolveCoord g (⟨cache0, [], []⟩ : GeoState).cache r.address with _ | p
    · rw [hx] at hco
      simp only [Option.map_none'] at hco
      rw [hco.1] at hlat
      simp at hlat
    · rw [hx] at hco
      rw [hco.2]
      simp
  simp only [Bool.and_eq_true, beq_iff_eq, Bool.not_eq_true', beq_eq_false_iff_ne, ne_eq]
  refine ⟨⟨⟨⟨hlat, hlng⟩, ?_⟩, ?_⟩, ?_⟩
  · rw [← hn]; exact hf.1
  · rw [← ha]; exact hf.2.1
  · rw [← hcat, ← ht]; exact hf.2.2

/-- C2: `classify` is a pure total function into the four categories
that trims whitespace and lowercases before matching, applies the spec's
five rules first-match-wins in the spec's order (it agrees everywhere
with the spec's rule list `classifySpec`), and satisfies every listed
example equality. -/
theorem C2_classify_contract :
    (∀ s : String, classify s = classifySpec s) ∧
    (∀ s : String,
      classify s = "restaurant" ∨ classify s = "bar" ∨ classify s = "rooftop" ∨
        classify s = "other") ∧
    classify "Rooftop Bar" = "rooftop" ∧ classify "rooftop BAR  " = "rooftop" ∧
    classify "Dive Bar" = "bar" ∧ classify "Bar + Restaurant" = "bar" ∧
    classify "Restaurant" = "restaurant" ∧ classify "Lunch" = "restaurant" ∧
    classify "Bakery" = "other" ∧ classify "" = "other" :=
  ⟨classify_eq_spec, classify_total, by decide, by decide, by decide, by decide,
    by decide, by decide, by decide, by decide⟩

/-- C3 (counterexample): the claim's unconditional "for every address
string at most one external geocoding call is issued" is false: with two
Listings sharing the address "2 Bay St" and a geocoder that returns the
absence indicator for it, one run issues two external calls for that
single address, because failed lookups are never inserted into the
cache. -/
theorem C3_counterexample :
    ¬((geocode_restaurants (fun _ => GeoResult.notFound) []
        [plainListing "A" "2 Bay St", plainListing "B" "2 Bay St"]).1.calls.count
          "2 Bay St" ≤ 1) := by
  decide

/-- C3 (amended): for every address the geocoder successfully resolves,
at most one external call is issued in a run — the successful lookup is
cached immediately — and any two Listings of the returned collection
sharing an identical address carry identical (bit-identical) lat and
lng. -/
theorem C3_cache_idempotence (g : String → GeoResult) (cache0 : Cache)
    (rs : List Listing) (a : String) (la ln : Rat) (hg : g a = .found la ln) :
    (geocode_restaurants g cache0 rs).1.calls.count a ≤ 1 ∧
    ((geocode_restaurants g cache0 rs).2).all (fun r1 =>
      ((geocode_restaurants g cache0 rs).2).all (fun r2 =>
        !(r1.address == r2.address) || ((r1.lat == r2.lat) && (r1.lng == r2.lng)))) = true := by
  constructor
  · have h := geocodeLoop_calls_count g a la ln hg rs ⟨cache0, [], []⟩
    refine le_trans h ?_
    simp only [List.count_nil]
    split <;> omega
  · rw [List.all_eq_true]
    intro r1 hr1
    rw [List.all_eq_true]
    intro r2 hr2
    unfold geocode_restaurants at hr1 hr2
    simp only [List.mem_filter] at hr1 hr2
    have h1 := geocodeLoop_out_coords g rs ⟨cache0, [], []⟩ r1 hr1.1
    have h2 := geocodeLoop_out_coords g rs ⟨cache0, [], []⟩ r2 hr2.1
    by_cases ha : r1.address = r2.address
    · rw [h1.1, h1.2, h2.1, h2.2, ha]
      simp
    · have : (r1.address == r2.address) = false := by
        simp only [beq_eq_false_iff_ne, ne_eq]; exact ha
      simp [this]

/-- Witness for C3 (amended): a concrete successful address, two
Listings sharing it. -/
theorem C3_cache_idempotence_witness :
    (geocode_restaurants (fun _ => GeoResult.found 1 2) []
        [plainListing "A" "1 Bay St", plainListing "B" "1 Bay St"]).1.calls.count
          "1 Bay St" ≤ 1 ∧
    ((geocode_restaurants (fun _ => GeoResult.found 1 2) []
        [plainListing "A" "1 Bay St", plainListing "B" "1 Bay St"]).2).all (fun r1 =>
      ((geocode_restaurants (fun _ => GeoResult.found 1 2) []
          [plainListing "A" "1 Bay St", plainListing "B" "1 Bay St"]).2).all (fun r2 =>
        !(r1.address == r2.address) || ((r1.lat == r2.lat) && (r1.lng == r2.lng)))) = true :=
  C3_cache_idempotence (fun _ => GeoResult.found 1 2) []
    [plainListing "A" "1 Bay St", plainListing "B" "1 Bay St"] "1 Bay St" 1 2 rfl

/-- C4: if the external geocoder returns its absence indicator or raises
for the (uncached) address of some input Listing, the run marks it
unresolved and excludes every Listing with that address from the
returned collection, surfaces the message identifying it, and still
processes every Listing — the loop's output has the input's length, so
the failure never aborts the run. -/
theorem C4_failure_handling (g : String → GeoResult) (cache0 : Cache) (rs : List Listing)
    (r : Listing) (hr : r ∈ rs) (hc : cache0.lookup r.address = none)
    (hfail : g r.address = .notFound ∨ ∃ e, g r.address = .raised e) :
    ((geocode_restaurants g cache0 rs).2).all
      (fun x => !(x.address == r.address)) = true ∧
    failMsg g r ∈ (geocode_restaurants g cache0 rs).1.msgs ∧
    ((geocodeLoop g ⟨cache0, [], []⟩ rs).2).length = rs.length := by
  have hres : resolveCoord g cache0 r.address = none := by
    unfold resolveCoord
    rw [hc]
    rcases hfail with h | ⟨e, h⟩ <;> rw [h]
  refine ⟨?_, ?_, geocodeLoop_length g rs ⟨cache0, [], []⟩⟩
  · rw [List.all_eq_true]
    intro x hx
    unfold geocode_restaurants at hx
    simp only [List.mem_filter] at hx
    obtain ⟨hmem, hlat⟩ := hx
    have hco := geocodeLoop_out_coords g rs ⟨cache0, [], []⟩ x hmem
    by_cases ha : x.address = r.address
    · rw [ha] at hco
      rw [hco.1] at hlat
      rw [show (⟨cache0, [], []⟩ : GeoState).cache = cache0 from rfl, hres] at hlat
      simp at hlat
    · simp only [Bool.not_eq_eq_eq_not, Bool.not_true, beq_eq_false_iff_ne, ne_eq]
      exact ha
  · rcases hfail with h | ⟨e, h⟩
    · have := geocodeLoop_warn_msg g rs ⟨cache0, [], []⟩ r hr hc h
      unfold failMsg
      rw [h]
      exact this
    · have := geocodeLoop_err_msg g rs ⟨cache0, [], []⟩ r e hr hc h
      unfold failMsg
      rw [h]
      exact this

/-- Witness for C4: one Listing, a geocoder that always returns the
absence indicator, an empty starting cache. -/
theorem C4_failure_handling_witness :
    ((geocode_restaurants (fun _ => GeoResult.notFound) []
        [plainListing "A" "9 Bay St"]).2).all
      (fun x => !(x.address == (plainListing "A" "9 Bay St").address)) = true ∧
    failMsg (fun _ => GeoResult.notFound) (plainListing "A" "9 Bay St") ∈
      (geocode_restaurants (fun _ => GeoResult.notFound) []
        [plainListing "A" "9 Bay St"]).1.msgs ∧
    ((geocodeLoop (fun _ => GeoResult.notFound) ⟨[], [], []⟩
        [plainListing "A" "9 Bay St"]).2).length =
      [plainListing "A" "9 Bay St"].length :=
  C4_failure_handling (fun _ => GeoResult.notFound) [] [plainListing "A" "9 Bay St"]
    (plainListing "A" "9 Bay St") (by decide) rfl (Or.inl rfl)

/-- C5: the cache persisted at the end of `geocode_restaurants` agrees
with the cache loaded at the start on every pre-existing entry, and
contains exactly one new entry per address of the run that was uncached
and successfully geocoded, holding the geocoder's coordinates; addresses
whose geocoding failed or raised are never inserted. -/
theorem C5_cache_persistence (g : String → GeoResult) (cache0 : Cache)
    (rs : List Listing) (a : String) :
    (geocode_restaurants g cache0 rs).1.cache.lookup a =
      match cache0.lookup a with
      | some v => some v
      | none =>
        if a ∈ rs.map Listing.address then
          match g a with
          | .found la ln => some (la, ln)
          | _ => none
        else none :=
  geocodeLoop_cache_lookup g a rs ⟨cache0, [], []⟩

/-- C6: `fetch_sheet_data`'s loop keeps a row if and only if its
location cell case-insensitively contains "sav" and its name and address
cells are non-empty (`keepRow`), silently skipping all other rows; and
on the spec's three-row scenario with a geocoder resolving "1 Bay St" to
(32.08, -81.09) the final output is exactly the one Listing "Pier 1"
with category rooftop. -/
theorem C6_filter_characterization :
    (∀ (image_urls : Nat → Option String) (i : Nat) (rows : List (List String)),
      fetchRows image_urls i rows =
        ((enumFrom i rows).filter (fun p => keepRow p.2)).map
          (fun p => mkListing image_urls p.1 p.2)) ∧
    (geocode_restaurants scenarioGeo [] (fetch_sheet_data (fun _ => none) scenarioRows)).2
      = [scenarioOut] :=
  ⟨fun image_urls i rows => fetchRows_eq image_urls rows i, by decide⟩

/-- C7: the Listing collection emitted to the renderers preserves the
input's relative order (geocoding and filtering never reorder), and the
KML grouping yields one folder per non-empty category in the fixed order
restaurant, bar, rooftop, other, each folder's Listings being an
in-order selection of the emitted collection. -/
theorem C7_ordering (g : String → GeoResult) (cache0 : Cache) (rs : List Listing) :
    (((geocode_restaurants g cache0 rs).2).map Listing.core).Sublist
      (rs.map Listing.core) ∧
    (generate_kml_folders (geocode_restaurants g cache0 rs).2).map Prod.fst =
      kmlCategoryOrder.filter (fun c =>
        ((geocode_restaurants g cache0 rs).2).any (fun r => r.category == c)) ∧
    (generate_kml_folders (geocode_restaurants g cache0 rs).2).all
      (fun p => decide (p.2.Sublist (geocode_restaurants g cache0 rs).2)) = true := by
  refine ⟨?_, folders_fst _ _, ?_⟩
  · have h1 : ((geocodeLoop g ⟨cache0, [], []⟩ rs).2.filter
        (fun r => r.lat.isSome)).Sublist (geocodeLoop g ⟨cache0, [], []⟩ rs).2 :=
      List.filter_sublist _
    have h2 := h1.map Listing.core
    rw [geocodeLoop_core_map] at h2
    exact h2
  · rw [List.all_eq_true]
    intro p hp
    rw [decide_eq_true_eq]
    exact folders_snd_sublist _ p hp

/-- C9: the second exact-match test for "restaurant" (the branch after
the combo bar-plus-restaurant rule) never determines the result of
`classify`: removing it yields an extensionally equal function, and any
input whose stripped lowercase form is exactly "restaurant" is already
returned by the earlier exact-match rule. -/
theorem C9_dead_branch :
    (∀ s : String, classify s = classifyNoDeadBranch s) ∧
    (∀ s : String, pyLower (pyStrip s) = "restaurant" → classify s = "restaurant") := by
  constructor
  · intro s
    have h := classify_eq_spec s
    rw [h]
    unfold classifySpec classifyNoDeadBranch
    rfl
  · intro s hs
    unfold classify
    rw [hs]
    simp [strContains, listContainsSub, List.isPrefixOf]

/-- Witness for C9: the input "  Restaurant " strips and lowercases to
"restaurant". -/
theorem C9_dead_branch_witness :
    classify "  Restaurant " = classifyNoDeadBranch "  Restaurant " ∧
    classify "  Restaurant " = "restaurant" :=
  ⟨C9_dead_branch.1 "  Restaurant ", C9_dead_branch.2 "  Restaurant " (by decide)⟩

/-- C10: reading any cell whose column index is at or beyond the row's
length yields the empty string instead of an out-of-bounds access;
consequently a row with at most 14 cells has an empty address and
`fetch_sheet_data`'s loop always skips it. -/
theorem C10_short_rows_skipped :
    (∀ (row : List String) (j : Nat), row.length ≤ j → cellAt row j = "") ∧
    (∀ (image_urls : Nat → Option String) (i : Nat) (row : List String)
      (rest : List (List String)), row.length ≤ 14 →
      cellAt row COL_ADDRESS = "" ∧
        fetchRows image_urls i (row :: rest) = fetchRows image_urls (i + 1) rest) := by
  have hcell : ∀ (row : List String) (j : Nat), row.length ≤ j → cellAt row j = "" := by
    intro row j hj
    unfold cellAt
    exact List.getD_eq_default _ _ hj
  refine ⟨hcell, ?_⟩
  intro image_urls i row rest hlen
  have haddr : cellAt row COL_ADDRESS = "" := hcell row COL_ADDRESS hlen
  refine ⟨haddr, ?_⟩
  by_cases h1 : strContains (pyLower (cellAt row COL_LOCATION)) "sav" = true
  · simp [fetchRows, h1, haddr]
  · have h1f : strContains (pyLower (cellAt row COL_LOCATION)) "sav" = false := by
      simpa using h1
    simp [fetchRows, h1f]

/-- Witness for C10: a three-cell row is both out of range at column 7
and always skipped by the loop. -/
theorem C10_short_rows_skipped_witness :
    cellAt ["Joe", "sav", "Bar"] 7 = "" ∧
    (cellAt ["Joe", "sav", "Bar"] COL_ADDRESS = "" ∧
      fetchRows (fun _ => none) 0 [["Joe", "sav", "Bar"]] = fetchRows (fun _ => none) 1 []) :=
  ⟨C10_short_rows_skipped.1 ["Joe", "sav", "Bar"] 7 (by decide),
    C10_short_rows_skipped.2 (fun _ => none) 0 ["Joe", "sav", "Bar"] [] (by decide)⟩

end SavannahMap
